import Mathlib

/-!
Verification of the conversation manager of the Gemini chat service
(gemini_client.py).  The Python class GeminiClient is embedded as a pure
state-passing model: the wall clock is a counter threaded through the state,
the remote chat service and the remote session factory are inputs describing
the outcome of each external call, and the files written to the output
directory are recorded in the state.
-/

namespace GeminiClient

/-- One entry of a conversation history.  Python represents a turn as a dict;
the optional fields model keys that are absent on some roles: user and system
turns carry no images key, and content is None when the model reply carried
no text. -/
structure Turn where
  role : String
  content : Option String
  images : Option (List String)
  timestamp : Nat
deriving DecidableEq

/-- The per-conversation record stored in GeminiClient.conversations:
a remote chat handle (modelled as the number handed out by the session
factory), the ordered history, and the two timestamps. -/
structure Conversation where
  chat : Nat
  history : List Turn
  created_at : Nat
  last_active : Nat
deriving DecidableEq

/-- An inline binary payload of a response part (part.inline_data). -/
structure Blob where
  data : List Nat
deriving DecidableEq

/-- One content part of a model response.  inline_data is None when the part
carries no binary payload. -/
structure RespPart where
  inline_data : Option Blob
deriving DecidableEq

/-- The content of a response candidate, holding its list of parts. -/
structure Content where
  parts : List RespPart
deriving DecidableEq

/-- One candidate of a model response; content may be None. -/
structure Candidate where
  content : Option Content
deriving DecidableEq

/-- A remote model response: optional text (None covers both a missing
attribute and a None value) and the list of candidates (the empty list
covers a missing or empty candidates attribute, both falsy in Python). -/
structure Response where
  text : Option String
  candidates : List Candidate
deriving DecidableEq

/-- Values stored in the dictionary returned by send_message. -/
inductive DVal where
  | vstr : String → DVal
  | voptStr : Option String → DVal
  | vpaths : List String → DVal
  | vbool : Bool → DVal
deriving DecidableEq

/-- The mutable state of a GeminiClient instance: configuration, the
conversation store (a Python dict, modelled as an association list with
replace-on-store semantics), the allocator for fresh remote chat handles,
the allocator for generated uuids, the wall clock counter, and the image
files written to the output directory, in write order. -/
structure St where
  max_history : Nat
  output_dir : String
  conversations : List (String × Conversation)
  nextChat : Nat
  nextUuid : Nat
  clock : Nat
  files : List (String × List Nat)
deriving DecidableEq

/-- Python dict lookup d[k] (as an Option). -/
def dictFind {α : Type} (k : String) : List (String × α) → Option α
  | [] => none
  | (k', v) :: rest => if k' = k then some v else dictFind k rest

/-- Python dict assignment d[k] = v: replace in place, or append a new
binding. -/
def dictStore {α : Type} (k : String) (v : α) : List (String × α) → List (String × α)
  | [] => [(k, v)]
  | (k', v') :: rest => if k' = k then (k, v) :: rest else (k', v') :: dictStore k v rest

/-- Python dict deletion del d[k].  A dict never holds a duplicate key, so
removal is modelled as dropping every binding of k. -/
def dictRemove {α : Type} (k : String) (m : List (String × α)) : List (String × α) :=
  m.filter (fun p => p.1 != k)

/-- datetime.now(): read the clock and advance it. -/
def now (st : St) : Nat × St :=
  (st.clock, { st with clock := st.clock + 1 })

/-- uuid.uuid4(): a fresh identifier from the uuid allocator. -/
def freshUuid (st : St) : String × St :=
  ("uuid-" ++ toString st.nextUuid, { st with nextUuid := st.nextUuid + 1 })

/-- The Python slice l[-m:].  For m = 0 this is l[0:], the whole list; for
m bigger than the length it is also the whole list; otherwise the last m
elements. -/
def sliceLastNeg {α : Type} (m : Nat) (l : List α) : List α :=
  if m = 0 then l else l.drop (l.length - m)

/-- Lines 102 to 107 of send_message: append a turn to the history, then, if
the length now exceeds max_history, keep only history[-max_history:]. -/
def pushWindow (maxH : Nat) (h : List Turn) (t : Turn) : List Turn :=
  let h1 := h ++ [t]
  if h1.length > maxH then sliceLastNeg maxH h1 else h1

/-- create_conversation: generate an id when none is given, open a remote
chat session (createErr is the outcome of client.chats.create: some e means
it raised e, which propagates), and store a fresh conversation record under
the id, replacing any previous entry. -/
def create_conversation (st : St) (cid? : Option String) (createErr : Option String) :
    Except (String × St) (String × St) :=
  let (cid, st1) :=
    match cid? with
    | none => freshUuid st
    | some c => (c, st)
  match createErr with
  | some e => Except.error (e, st1)
  | none =>
    let chatHandle := st1.nextChat
    let st2 : St := { st1 with nextChat := st1.nextChat + 1 }
    let (tCreate, st3) := now st2
    let (tActive, st4) := now st3
    let conv : Conversation :=
      { chat := chatHandle, history := [], created_at := tCreate, last_active := tActive }
    Except.ok (cid, { st4 with conversations := dictStore cid conv st4.conversations })

/-- get_conversation_history: the stored history, or the empty list when the
id is unknown. -/
def get_conversation_history (st : St) (cid : String) : List Turn :=
  match dictFind cid st.conversations with
  | none => []
  | some conv => conv.history

/-- The image-saving loop of send_message (lines 125 to 142): walk the parts
with their enumerate index, and for each part with a truthy inline_data read
the clock for the file name, write the file under the output directory and
collect its path. -/
def saveParts (cid : String) (odir : String) (ps : List RespPart) (i : Nat) (st : St) :
    List String × St :=
  match ps with
  | [] => ([], st)
  | p :: rest =>
    match p.inline_data with
    | none => saveParts cid odir rest (i + 1) st
    | some blob =>
      let (ts, st1) := now st
      let fname := cid ++ "_" ++ toString ts ++ "_" ++ toString i ++ ".png"
      let fpath := odir ++ "/" ++ fname
      let st2 : St := { st1 with files := st1.files ++ [(fpath, blob.data)] }
      let (paths, st3) := saveParts cid odir rest (i + 1) st2
      (fpath :: paths, st3)

/-- Lines 120 to 142 of send_message: images are extracted only from the
first candidate of the response, when it exists and has content. -/
def saveResponseImages (cid : String) (resp : Response) (st : St) : List String × St :=
  match resp.candidates with
  | [] => ([], st)
  | cand :: _ =>
    match cand.content with
    | none => ([], st)
    | some cont => saveParts cid st.output_dir cont.parts 0 st

/-- The inline payloads the code can see: those of the first candidate, in
part order. -/
def firstCandInline (resp : Response) : List Blob :=
  match resp.candidates with
  | [] => []
  | cand :: _ =>
    match cand.content with
    | none => []
    | some cont => cont.parts.filterMap (fun p => p.inline_data)

/-- Spec-side definition, following the words of the spec: every inline
binary payload present in the result content parts, in their order of
appearance in the response, across all candidates. -/
def specAllInlinePayloads (resp : Response) : List Blob :=
  (resp.candidates.map (fun cand =>
    match cand.content with
    | none => []
    | some cont => cont.parts.filterMap (fun p => p.inline_data))).flatten

/-- Lines 89 to 91 of send_message: when the id is not a key of the store
(or is None), create the conversation and use the id create returns. -/
def ensureConv (st : St) (cid? : Option String) (createErr : Option String) :
    Except (String × St) (String × St) :=
  match cid? with
  | none => create_conversation st none createErr
  | some c =>
    if (dictFind c st.conversations).isSome then Except.ok (c, st)
    else create_conversation st (some c) createErr

/-- Lines 96 to 173 of send_message, for a conversation present in the
store: append the user turn, trim the window, update last_active, then run
the remote call.  On success save the images of the first candidate, append
the assistant turn and return the success dict; on a raised error append the
system error turn and return the failure dict. -/
def exchangeKnown (st : St) (cid : String) (conv : Conversation) (msg : String)
    (remote : Except String Response) : List (String × DVal) × St :=
  let (tU, stA) := now st
  let userTurn : Turn := { role := "user", content := some msg, images := none, timestamp := tU }
  let h2 := pushWindow st.max_history conv.history userTurn
  let (tLA, stB) := now stA
  let conv1 : Conversation := { conv with history := h2, last_active := tLA }
  let stC : St := { stB with conversations := dictStore cid conv1 stB.conversations }
  match remote with
  | Except.ok resp =>
    let text_content := resp.text
    let (image_paths, stD) := saveResponseImages cid resp stC
    let (tA, stE) := now stD
    let assistantTurn : Turn :=
      { role := "assistant", content := text_content, images := some image_paths,
        timestamp := tA }
    let conv2 : Conversation := { conv1 with history := h2 ++ [assistantTurn] }
    let stF : St := { stE with conversations := dictStore cid conv2 stE.conversations }
    ([("conversation_id", DVal.vstr cid), ("text", DVal.voptStr text_content),
      ("image_paths", DVal.vpaths image_paths), ("success", DVal.vbool true)], stF)
  | Except.error e =>
    let (tE, stD) := now stC
    let errTurn : Turn :=
      { role := "system", content := some ("Error: " ++ e), images := none, timestamp := tE }
    let conv2 : Conversation := { conv1 with history := h2 ++ [errTurn] }
    let stF : St := { stD with conversations := dictStore cid conv2 stD.conversations }
    ([("conversation_id", DVal.vstr cid), ("error", DVal.vstr e),
      ("success", DVal.vbool false)], stF)

/-- send_message: ensure the conversation exists (a failure of the remote
session factory propagates, since lines 89 to 94 are outside the try block),
look the conversation up and run the exchange.  remote is the outcome of
chat.send_message.  The error branch of the final match models the KeyError
Python would raise if the lookup after creation failed; it is unreachable. -/
def send_message (st : St) (cid? : Option String) (msg : String)
    (createErr : Option String) (remote : Except String Response) :
    Except (String × St) (List (String × DVal) × St) :=
  match ensureConv st cid? createErr with
  | Except.error es => Except.error es
  | Except.ok (cid, st1) =>
    match dictFind cid st1.conversations with
    | none => Except.error ("KeyError: " ++ cid, st1)
    | some conv => Except.ok (exchangeKnown st1 cid conv msg remote)

/-- reset_conversation: false when the id is unknown, otherwise re-create
under the same id and return true. -/
def reset_conversation (st : St) (cid : String) (createErr : Option String) :
    Except (String × St) (Bool × St) :=
  match dictFind cid st.conversations with
  | none => Except.ok (false, st)
  | some _ =>
    match create_conversation st (some cid) createErr with
    | Except.error es => Except.error es
    | Except.ok (_, st') => Except.ok (true, st')

/-- delete_conversation: false when the id is unknown, otherwise remove the
entry and return true. -/
def delete_conversation (st : St) (cid : String) : Bool × St :=
  match dictFind cid st.conversations with
  | none => (false, st)
  | some _ => (true, { st with conversations := dictRemove cid st.conversations })

/-- The state component of a send_message outcome (also defined on the
propagated-exception case, where the state at the raise point is carried). -/
def stateAfter (r : Except (String × St) (List (String × DVal) × St)) : St :=
  match r with
  | Except.ok (_, s) => s
  | Except.error (_, s) => s

/-- The returned dictionary of a send_message outcome (empty when the call
raised). -/
def resultAfter (r : Except (String × St) (List (String × DVal) × St)) :
    List (String × DVal) :=
  match r with
  | Except.ok (res, _) => res
  | Except.error _ => []

/-- Run a sequence of send_message calls on one conversation id; each call
carries its message and the outcome of its remote chat invocation. -/
def runSends (st : St) (cid : String) : List (String × Except String Response) → St
  | [] => st
  | (msg, remote) :: rest =>
    runSends (stateAfter (send_message st (some cid) msg none remote)) cid rest

/-- A response carrying text and no candidates. -/
def respText : Response := { text := some "hi", candidates := [] }

/-- A fresh client state configured with a window of two turns. -/
def st2 : St :=
  { max_history := 2, output_dir := "output", conversations := [], nextChat := 0,
    nextUuid := 0, clock := 0, files := [] }

/-- A concrete user turn. -/
def turnA : Turn := { role := "user", content := some "x", images := none, timestamp := 0 }

/-- A concrete assistant turn. -/
def turnB : Turn :=
  { role := "assistant", content := some "y", images := some [], timestamp := 1 }

/-- A conversation already holding one full exchange. -/
def convAB : Conversation :=
  { chat := 0, history := [turnA, turnB], created_at := 0, last_active := 1 }

/-- A client state with a window of two turns whose conversation c already
holds two turns. -/
def stAB : St :=
  { max_history := 2, output_dir := "output", conversations := [("c", convAB)],
    nextChat := 1, nextUuid := 0, clock := 2, files := [] }

/-- A response whose two candidates each carry one inline payload. -/
def respTwo : Response :=
  { text := some "t",
    candidates :=
      [ { content := some { parts := [ { inline_data := some { data := [1] } } ] } },
        { content := some { parts := [ { inline_data := some { data := [2] } } ] } } ] }

/-! ## Helper lemmas -/

theorem dictFind_store_self {α : Type} (k : String) (v : α) (m : List (String × α)) :
    dictFind k (dictStore k v m) = some v := by
  induction m with
  | nil => simp [dictStore, dictFind]
  | cons p rest ih =>
    obtain ⟨k', v'⟩ := p
    by_cases h : k' = k
    · simp [dictStore, dictFind, h]
    · simp [dictStore, dictFind, h, ih]

theorem dictFind_remove_self {α : Type} (k : String) (m : List (String × α)) :
    dictFind k (dictRemove k m) = none := by
  induction m with
  | nil => rfl
  | cons p rest ih =>
    obtain ⟨k', v'⟩ := p
    by_cases h : k' = k
    · subst h
      simpa [dictRemove, List.filter] using ih
    · have hb : (k' != k) = true := bne_iff_ne.mpr h
      simpa [dictRemove, dictFind, List.filter, hb, h] using ih

theorem pushWindow_length_le (m : Nat) (h : List Turn) (t : Turn) (hm : 1 ≤ m) :
    (pushWindow m h t).length ≤ m := by
  simp only [pushWindow, sliceLastNeg]
  split
  · split
    · omega
    · simp only [List.length_drop]
      omega
  · omega

theorem saveParts_spec (cid odir : String) (ps : List RespPart) (i : Nat) (st : St)
    (paths : List String) (st' : St) (h : saveParts cid odir ps i st = (paths, st')) :
    ∃ cl newFiles,
      st' = { st with clock := cl, files := st.files ++ newFiles } ∧
      newFiles.map Prod.fst = paths ∧
      newFiles.map Prod.snd = (ps.filterMap (fun p => p.inline_data)).map Blob.data := by
  induction ps generalizing i st paths st' with
  | nil =>
    simp only [saveParts] at h
    injection h with h1 h2
    subst h1
    subst h2
    refine ⟨st.clock, [], ?_, rfl, by simp⟩
    cases st
    simp
  | cons p rest ih =>
    cases hp : p.inline_data with
    | none =>
      simp only [saveParts, hp] at h
      obtain ⟨cl, nf, h1, h2, h3⟩ := ih (i + 1) st paths st' h
      exact ⟨cl, nf, h1, h2, by simpa [List.filterMap_cons, hp] using h3⟩
    | some blob =>
      simp only [saveParts, hp, now] at h
      injection h with h1 h2
      subst h1
      subst h2
      obtain ⟨cl, nf, h1, h2, h3⟩ := ih (i + 1) { st with clock := st.clock + 1, files := st.files ++ [(odir ++ "/" ++ (cid ++ "_" ++ toString st.clock ++ "_" ++ toString i ++ ".png"), blob.data)] } _ _ rfl
      refine ⟨cl, (odir ++ "/" ++ (cid ++ "_" ++ toString st.clock ++ "_" ++ toString i ++ ".png"), blob.data) :: nf, ?_, ?_, ?_⟩
      · rw [h1]
        cases st
        simp
      · simpa using h2
      · simpa [List.filterMap_cons, hp] using h3

theorem saveResponseImages_spec (cid : String) (resp : Response) (st : St)
    (paths : List String) (st' : St) (h : saveResponseImages cid resp st = (paths, st')) :
    ∃ cl newFiles,
      st' = { st with clock := cl, files := st.files ++ newFiles } ∧
      newFiles.map Prod.fst = paths ∧
      newFiles.map Prod.snd = (firstCandInline resp).map Blob.data := by
  cases hc : resp.candidates with
  | nil =>
    simp only [saveResponseImages, hc] at h
    injection h with h1 h2
    subst h1
    subst h2
    refine ⟨st.clock, [], ?_, rfl, by simp [firstCandInline, hc]⟩
    cases st
    simp
  | cons cand rest =>
    cases hcc : cand.content with
    | none =>
      simp only [saveResponseImages, hc, hcc] at h
      injection h with h1 h2
      subst h1
      subst h2
      refine ⟨st.clock, [], ?_, rfl, by simp [firstCandInline, hc, hcc]⟩
      cases st
      simp
    | some cont =>
      simp only [saveResponseImages, hc, hcc] at h
      obtain ⟨cl, nf, h1, h2, h3⟩ := saveParts_spec cid st.output_dir cont.parts 0 st paths st' h
      exact ⟨cl, nf, h1, h2, by simpa [firstCandInline, hc, hcc] using h3⟩

theorem exchangeKnown_error_shape (st : St) (cid : String) (conv : Conversation)
    (msg e : String) :
    ∃ st',
      exchangeKnown st cid conv msg (Except.error e) =
        ([("conversation_id", DVal.vstr cid), ("error", DVal.vstr e),
          ("success", DVal.vbool false)], st') ∧
      dictFind cid st'.conversations = some
        { chat := conv.chat,
          history :=
            pushWindow st.max_history conv.history
              { role := "user", content := some msg, images := none, timestamp := st.clock } ++
            [{ role := "system", content := some ("Error: " ++ e), images := none,
               timestamp := st.clock + 2 }],
          created_at := conv.created_at, last_active := st.clock + 1 } ∧
      st'.max_history = st.max_history ∧
      st'.files = st.files := by
  refine ⟨_, rfl, ?_, rfl, rfl⟩
  exact dictFind_store_self cid _ _

theorem exchangeKnown_ok_shape (st : St) (cid : String) (conv : Conversation) (msg : String)
    (resp : Response) :
    ∃ ps ta st',
      exchangeKnown st cid conv msg (Except.ok resp) =
        ([("conversation_id", DVal.vstr cid), ("text", DVal.voptStr resp.text),
          ("image_paths", DVal.vpaths ps), ("success", DVal.vbool true)], st') ∧
      dictFind cid st'.conversations = some
        { chat := conv.chat,
          history :=
            pushWindow st.max_history conv.history
              { role := "user", content := some msg, images := none, timestamp := st.clock } ++
            [{ role := "assistant", content := resp.text, images := some ps, timestamp := ta }],
          created_at := conv.created_at, last_active := st.clock + 1 } ∧
      st'.max_history = st.max_history ∧
      (∃ newFiles, st'.files = st.files ++ newFiles ∧
        newFiles.map Prod.fst = ps ∧
        newFiles.map Prod.snd = (firstCandInline resp).map Blob.data) := by
  simp only [exchangeKnown, now]
  rcases hsv : saveResponseImages cid resp { st with clock := st.clock + 2, conversations := dictStore cid { conv with history := pushWindow st.max_history conv.history { role := "user", content := some msg, images := none, timestamp := st.clock }, last_active := st.clock + 1 } st.conversations } with ⟨ips, stD⟩
  obtain ⟨cl, nf, h1, h2, h3⟩ := saveResponseImages_spec cid resp _ ips stD hsv
  subst h1
  refine ⟨ips, cl, _, rfl, ?_, rfl, nf, rfl, h2, h3⟩
  exact dictFind_store_self cid _ _

theorem ensureConv_some (st : St) (cid : String) :
    ∃ conv st1,
      ensureConv st (some cid) none = Except.ok (cid, st1) ∧
      dictFind cid st1.conversations = some conv ∧
      conv.history = get_conversation_history st cid ∧
      st1.max_history = st.max_history ∧
      st1.files = st.files := by
  cases hk : dictFind cid st.conversations with
  | some conv =>
    refine ⟨conv, st, ?_, hk, ?_, rfl, rfl⟩
    · simp [ensureConv, hk]
    · simp [get_conversation_history, hk]
  | none =>
    refine ⟨{ chat := st.nextChat, history := [], created_at := st.clock, last_active := st.clock + 1 }, { st with nextChat := st.nextChat + 1, clock := st.clock + 2, conversations := dictStore cid { chat := st.nextChat, history := [], created_at := st.clock, last_active := st.clock + 1 } st.conversations }, ?_, ?_, ?_, rfl, rfl⟩
    · simp [ensureConv, hk, create_conversation, now]
    · exact dictFind_store_self cid _ _
    · simp [get_conversation_history, hk]

theorem ensureConv_ok (st : St) (cid? : Option String) :
    ∃ cid st1 conv,
      ensureConv st cid? none = Except.ok (cid, st1) ∧
      dictFind cid st1.conversations = some conv := by
  cases cid? with
  | some c =>
    obtain ⟨conv, st1, he, hf, _, _, _⟩ := ensureConv_some st c
    exact ⟨c, st1, conv, he, hf⟩
  | none =>
    refine ⟨"uuid-" ++ toString st.nextUuid, _, { chat := st.nextChat, history := [], created_at := st.clock, last_active := st.clock + 1 }, rfl, ?_⟩
    exact dictFind_store_self _ _ _

theorem send_message_run (st : St) (cid? : Option String) (cid msg : String) (st1 : St)
    (conv : Conversation) (remote : Except String Response)
    (he : ensureConv st cid? none = Except.ok (cid, st1))
    (hf : dictFind cid st1.conversations = some conv) :
    send_message st cid? msg none remote = Except.ok (exchangeKnown st1 cid conv msg remote) := by
  simp [send_message, he, hf]

theorem send_message_step (st : St) (cid msg : String) (remote : Except String Response)
    (hm : 1 ≤ st.max_history) :
    ∃ res st',
      send_message st (some cid) msg none remote = Except.ok (res, st') ∧
      st'.max_history = st.max_history ∧
      (get_conversation_history st' cid).length ≤ st.max_history + 1 := by
  obtain ⟨conv, st1, he, hf, hh, hmax, hfiles⟩ := ensureConv_some st cid
  have hrun := send_message_run st (some cid) cid msg st1 conv remote he hf
  cases remote with
  | ok resp =>
    obtain ⟨ps, ta, st', heq, hfind, hmax2, _⟩ := exchangeKnown_ok_shape st1 cid conv msg resp
    refine ⟨_, st', by rw [hrun, heq], by rw [hmax2, hmax], ?_⟩
    have hlen := pushWindow_length_le st1.max_history conv.history
      { role := "user", content := some msg, images := none, timestamp := st1.clock }
      (by rw [hmax]; exact hm)
    simp only [get_conversation_history, hfind, List.length_append, List.length_cons,
      List.length_nil]
    rw [← hmax]
    omega
  | error e =>
    obtain ⟨st', heq, hfind, hmax2, _⟩ := exchangeKnown_error_shape st1 cid conv msg e
    refine ⟨_, st', by rw [hrun, heq], by rw [hmax2, hmax], ?_⟩
    have hlen := pushWindow_length_le st1.max_history conv.history
      { role := "user", content := some msg, images := none, timestamp := st1.clock }
      (by rw [hmax]; exact hm)
    simp only [get_conversation_history, hfind, List.length_append, List.length_cons,
      List.length_nil]
    rw [← hmax]
    omega

theorem runSends_append (st : St) (cid : String)
    (calls : List (String × Except String Response)) (c : String × Except String Response) :
    runSends st cid (calls ++ [c]) = runSends (runSends st cid calls) cid [c] := by
  induction calls generalizing st with
  | nil => rfl
  | cons d rest ih =>
    obtain ⟨msg, remote⟩ := d
    simp only [List.cons_append, runSends]
    exact ih _

/-! ## Claims -/

/-- C1, counterexample: with the configured maximum window size 2, two
successful send_message calls on one conversation leave its history with 3
turns, exceeding the maximum; so the history length is not bounded by
max_history after each call returns. -/
theorem C1_counterexample :
    ¬ ((get_conversation_history
          (runSends st2 "c" [("a", Except.ok respText), ("b", Except.ok respText)]) "c").length ≤
        st2.max_history) := by decide

/-- C1, amended: for any configured maximum window size of at least 1, after
each send_message call on a conversation returns, the history length is at
most max_history + 1.  The bound max_history itself is enforced only right
after the user turn is appended; the assistant or system turn appended
afterwards is not followed by a truncation. -/
theorem C1_amended (st : St) (cid : String)
    (calls : List (String × Except String Response)) (c : String × Except String Response)
    (hm : 1 ≤ st.max_history) :
    (get_conversation_history (runSends st cid (calls ++ [c])) cid).length ≤
      st.max_history + 1 := by
  induction calls generalizing st with
  | nil =>
    obtain ⟨msg, remote⟩ := c
    obtain ⟨res, st', heq, hmax, hlen⟩ := send_message_step st cid msg remote hm
    simp only [List.nil_append, runSends, heq, stateAfter]
    exact hlen
  | cons d rest ih =>
    obtain ⟨msg, remote⟩ := d
    obtain ⟨res, st', heq, hmax, _⟩ := send_message_step st cid msg remote hm
    simp only [List.cons_append, runSends, heq, stateAfter]
    have := ih st' (by rw [hmax]; exact hm)
    rw [hmax] at this
    exact this

/-- C1, witness for the amended theorem at a concrete input: one call on a
fresh client with window size 2. -/
theorem C1_witness :
    1 ≤ st2.max_history ∧
    (get_conversation_history (runSends st2 "c" ([] ++ [("a", Except.ok respText)])) "c").length ≤
      st2.max_history + 1 :=
  ⟨by decide, C1_amended st2 "c" [] ("a", Except.ok respText) (by decide)⟩

/-- C2, counterexample: with maximum window size 2, three sequential
successful send_message calls, each producing one user and one assistant
turn, leave the history with 3 turns, not exactly 2. -/
theorem C2_counterexample :
    ¬ ((get_conversation_history
          (runSends st2 "c"
            [("a", Except.ok respText), ("b", Except.ok respText), ("x", Except.ok respText)])
          "c").length = 2) := by decide

/-- C2, amended: with maximum window size 2, three sequential successful
send_message calls on the same fresh conversation, each producing one user
and one assistant turn, leave the history containing exactly 3 turns: the
second exchange's assistant turn, the third user turn, and the third
assistant turn.  Truncation runs only on the user-turn append, so the final
assistant turn overflows the window until the next call. -/
theorem C2_amended (m1 m2 m3 : String) (t1 t2 t3 : Option String) :
    get_conversation_history
        (runSends st2 "c"
          [(m1, Except.ok { text := t1, candidates := [] }),
           (m2, Except.ok { text := t2, candidates := [] }),
           (m3, Except.ok { text := t3, candidates := [] })]) "c" =
      [{ role := "assistant", content := t2, images := some [], timestamp := 7 },
       { role := "user", content := some m3, images := none, timestamp := 8 },
       { role := "assistant", content := t3, images := some [], timestamp := 10 }] := rfl

/-- C3, counterexample: a remote failure whose description is the empty
string yields success=false but an empty error description in the returned
result, so the error description is not always non-empty. -/
theorem C3_counterexample :
    dictFind "success" (resultAfter (send_message stAB (some "c") "m" none (Except.error ""))) =
        some (DVal.vbool false) ∧
    dictFind "error" (resultAfter (send_message stAB (some "c") "m" none (Except.error ""))) =
        some (DVal.vstr "") := by decide

/-- C3, amended: for every send_message call whose remote chat invocation
fails, relative to the state after the user turn was appended (and window
trimmed) the history grows by exactly one system turn whose content is the
error description prefixed by Error:, the returned result has success=false
with an error field equal to the failure's description (hence non-empty
whenever that description is non-empty), and no image files are written by
that call. -/
theorem C3_amended (st : St) (cid msg e : String) :
    ∃ st' u s,
      send_message st (some cid) msg none (Except.error e) =
        Except.ok ([("conversation_id", DVal.vstr cid), ("error", DVal.vstr e),
          ("success", DVal.vbool false)], st') ∧
      u.role = "user" ∧ u.content = some msg ∧
      s.role = "system" ∧ s.content = some ("Error: " ++ e) ∧
      get_conversation_history st' cid =
        pushWindow st.max_history (get_conversation_history st cid) u ++ [s] ∧
      st'.files = st.files := by
  obtain ⟨conv, st1, he, hf, hh, hmax, hfiles⟩ := ensureConv_some st cid
  have hrun := send_message_run st (some cid) cid msg st1 conv (Except.error e) he hf
  obtain ⟨st', heq, hfind, hmax2, hfiles2⟩ := exchangeKnown_error_shape st1 cid conv msg e
  refine ⟨st',
    { role := "user", content := some msg, images := none, timestamp := st1.clock },
    { role := "system", content := some ("Error: " ++ e), images := none,
      timestamp := st1.clock + 2 },
    by rw [hrun, heq], rfl, rfl, rfl, rfl, ?_, by rw [hfiles2, hfiles]⟩
  simp only [get_conversation_history, hfind]
  rw [hh, hmax]
  exact rfl

/-- C4, counterexample: when the conversation id is unknown and the remote
session creation raises, send_message propagates the exception to the caller
instead of returning a result value. -/
theorem C4_counterexample :
    send_message stAB (some "d") "m" (some "boom") (Except.ok respText) =
      Except.error ("boom", stAB) := rfl

/-- C4, amended: when the conversation creation step succeeds (in particular
whenever the id is already known), every failure of the remote chat
invocation is caught locally and converted into a returned result value; the
caller receives a well-formed result whose error field is present exactly
when success is false.  A failure while the conversation is created for an
unknown id, however, propagates, since that step runs outside the try block. -/
theorem C4_amended (st : St) (cid? : Option String) (msg : String)
    (remote : Except String Response) :
    ∃ res st',
      send_message st cid? msg none remote = Except.ok (res, st') ∧
      ((dictFind "success" res = some (DVal.vbool true) ∧ dictFind "error" res = none) ∨
       (dictFind "success" res = some (DVal.vbool false) ∧
         ∃ e, dictFind "error" res = some (DVal.vstr e))) := by
  obtain ⟨cid, st1, conv, he, hf⟩ := ensureConv_ok st cid?
  cases remote with
  | ok r =>
    have hrun := send_message_run st cid? cid msg st1 conv (Except.ok r) he hf
    obtain ⟨ps, ta, st', heq, _⟩ := exchangeKnown_ok_shape st1 cid conv msg r
    refine ⟨[("conversation_id", DVal.vstr cid), ("text", DVal.voptStr r.text), ("image_paths", DVal.vpaths ps), ("success", DVal.vbool true)], st', by rw [hrun, heq], Or.inl ⟨rfl, rfl⟩⟩
  | error e =>
    have hrun := send_message_run st cid? cid msg st1 conv (Except.error e) he hf
    obtain ⟨st', heq, _⟩ := exchangeKnown_error_shape st1 cid conv msg e
    refine ⟨[("conversation_id", DVal.vstr cid), ("error", DVal.vstr e), ("success", DVal.vbool false)], st', by rw [hrun, heq], Or.inr ⟨rfl, e, rfl⟩⟩

/-- C5, counterexample: a successful response carrying two candidates with
one inline payload each produces only one returned image path and one saved
file, while the response holds two inline payloads; the returned paths are
not in one-to-one correspondence with every inline payload of the response. -/
theorem C5_counterexample :
    dictFind "image_paths"
        (resultAfter (send_message stAB (some "c") "m" none (Except.ok respTwo))) =
      some (DVal.vpaths ["output/c_4_0.png"]) ∧
    (specAllInlinePayloads respTwo).length = 2 := by decide

/-- C5, amended: for every successful send_message call, the returned image
paths correspond one-to-one and in order with the inline binary payloads of
the FIRST candidate's content parts (payloads in further candidates are
ignored): the files appended to the output directory by the call carry
exactly those paths, in order, and their contents are exactly those
payloads, in order. -/
theorem C5_amended (st : St) (cid msg : String) (resp : Response) :
    ∃ res st' ps newFiles,
      send_message st (some cid) msg none (Except.ok resp) = Except.ok (res, st') ∧
      dictFind "image_paths" res = some (DVal.vpaths ps) ∧
      st'.files = st.files ++ newFiles ∧
      newFiles.map Prod.fst = ps ∧
      newFiles.map Prod.snd = (firstCandInline resp).map Blob.data := by
  obtain ⟨conv, st1, he, hf, hh, hmax, hfiles⟩ := ensureConv_some st cid
  have hrun := send_message_run st (some cid) cid msg st1 conv (Except.ok resp) he hf
  obtain ⟨ps, ta, st', heq, hfind, hmax2, nf, hf1, hf2, hf3⟩ :=
    exchangeKnown_ok_shape st1 cid conv msg resp
  refine ⟨[("conversation_id", DVal.vstr cid), ("text", DVal.voptStr resp.text), ("image_paths", DVal.vpaths ps), ("success", DVal.vbool true)], st', ps, nf, by rw [hrun, heq], rfl, ?_, hf2, hf3⟩
  rw [hf1, hfiles]

/-- C6, counterexample: with the maximum window configured to 0, appending a
user turn makes the history length exceed the maximum, yet the slice
history[-0:] keeps the whole history instead of truncating it to 0 entries. -/
theorem C6_counterexample :
    (([] : List Turn) ++ [turnA]).length > 0 ∧ pushWindow 0 [] turnA = [turnA] := by decide

/-- C6, amended: for a maximum window of at least 1, whenever appending a
user turn makes the history length exceed the maximum, the history is
truncated to exactly the most recent max_history entries: the dropped
entries are an initial segment (the oldest), and the remainder keeps its
relative order as a contiguous suffix. -/
theorem C6_amended (m : Nat) (h : List Turn) (t : Turn) (hm : 1 ≤ m)
    (hex : (h ++ [t]).length > m) :
    (pushWindow m h t).length = m ∧
    ∃ dropped,
      dropped ++ pushWindow m h t = h ++ [t] ∧
      dropped.length = (h ++ [t]).length - m := by
  have hm0 : m ≠ 0 := by omega
  simp only [pushWindow, sliceLastNeg, if_pos hex, if_neg hm0]
  constructor
  · simp only [List.length_drop]
    omega
  · refine ⟨(h ++ [t]).take ((h ++ [t]).length - m), List.take_append_drop _ _, ?_⟩
    simp only [List.length_take]
    omega

/-- C6, witness for the amended theorem at a concrete input: a window of 1
overflowed by a second turn. -/
theorem C6_witness :
    1 ≤ 1 ∧ ([turnA] ++ [turnB]).length > 1 ∧
      ((pushWindow 1 [turnA] turnB).length = 1 ∧
        ∃ dropped,
          dropped ++ pushWindow 1 [turnA] turnB = [turnA] ++ [turnB] ∧
          dropped.length = ([turnA] ++ [turnB]).length - 1) :=
  ⟨by decide, by decide, C6_amended 1 [turnA] turnB (by decide) (by decide)⟩

/-- C7: reset_conversation on an existing id returns true and replaces the
entry under the same key by a freshly created conversation: empty history,
the chat handle freshly allocated (hence distinct from any handle issued
earlier, in particular the replaced one), and fresh timestamps.  On a
nonexistent id it returns false and leaves the state entirely unchanged. -/
theorem C7_reset (st : St) (cid : String) :
    (∀ conv, dictFind cid st.conversations = some conv →
      ∃ st',
        reset_conversation st cid none = Except.ok (true, st') ∧
        dictFind cid st'.conversations = some
          { chat := st.nextChat, history := [], created_at := st.clock,
            last_active := st.clock + 1 } ∧
        get_conversation_history st' cid = [] ∧
        (conv.chat < st.nextChat → ∀ c', dictFind cid st'.conversations = some c' →
          c'.chat ≠ conv.chat)) ∧
    (dictFind cid st.conversations = none →
      reset_conversation st cid none = Except.ok (false, st)) := by
  constructor
  · intro conv hk
    refine ⟨{ st with nextChat := st.nextChat + 1, clock := st.clock + 2, conversations := dictStore cid { chat := st.nextChat, history := [], created_at := st.clock, last_active := st.clock + 1 } st.conversations }, ?_, ?_, ?_, ?_⟩
    · simp [reset_conversation, hk, create_conversation, now]
    · exact dictFind_store_self cid _ _
    · simp only [get_conversation_history, dictFind_store_self]
    · intro hlt c' hc'
      rw [dictFind_store_self] at hc'
      injection hc' with hc'
      subst hc'
      simp only []
      omega
  · intro hk
    simp [reset_conversation, hk]

/-- C7, witness at a concrete input: resetting the existing conversation c
and resetting an unknown id d. -/
theorem C7_witness :
    (∃ st',
      reset_conversation stAB "c" none = Except.ok (true, st') ∧
      dictFind "c" st'.conversations = some
        { chat := stAB.nextChat, history := [], created_at := stAB.clock,
          last_active := stAB.clock + 1 } ∧
      get_conversation_history st' "c" = [] ∧
      (convAB.chat < stAB.nextChat → ∀ c', dictFind "c" st'.conversations = some c' →
        c'.chat ≠ convAB.chat)) ∧
    reset_conversation stAB "d" none = Except.ok (false, stAB) :=
  ⟨(C7_reset stAB "c").1 convAB (by decide), (C7_reset stAB "d").2 (by decide)⟩

/-- C8: get_conversation_history on an id that is absent from the store (in
particular one never created) returns the empty sequence, and it returns the
empty sequence after the id is deleted; being a total read-only function of
the state, it raises nothing and mutates nothing. -/
theorem C8_get_history (st : St) (cid : String) :
    (dictFind cid st.conversations = none → get_conversation_history st cid = []) ∧
    get_conversation_history (delete_conversation st cid).2 cid = [] := by
  constructor
  · intro hk
    simp [get_conversation_history, hk]
  · cases hk : dictFind cid st.conversations with
    | none => simp [delete_conversation, hk, get_conversation_history]
    | some conv =>
      simp [delete_conversation, hk, get_conversation_history, dictFind_remove_self]

/-- C8, witness at a concrete input: an id never created, before and after a
delete call. -/
theorem C8_witness :
    get_conversation_history st2 "nope" = [] ∧
    get_conversation_history (delete_conversation st2 "nope").2 "nope" = [] :=
  ⟨(C8_get_history st2 "nope").1 (by decide), (C8_get_history st2 "nope").2⟩

/-- C9, counterexample: with a full window (2 prior turns, maximum 2), a
failed call truncates the oldest prior turn when the user turn is appended,
so the resulting history is strictly shorter than the prior history extended
by the user and system turns. -/
theorem C9_counterexample :
    ¬ ((get_conversation_history (runSends stAB "c" [("m", Except.error "x")]) "c").length =
        convAB.history.length + 2) := by decide

/-- C9, amended: for every send_message call on an existing conversation
whose remote chat invocation fails, the history after the call equals the
prior history window-pushed with the new user turn (dropping oldest entries
if the window overflowed) and extended by the system error turn; the chat
handle and creation timestamp are unchanged and the last-active timestamp is
updated, none of it rolled back. -/
theorem C9_amended (st : St) (cid msg e : String) (conv : Conversation)
    (hk : dictFind cid st.conversations = some conv) :
    ∃ st' conv',
      send_message st (some cid) msg none (Except.error e) =
        Except.ok ([("conversation_id", DVal.vstr cid), ("error", DVal.vstr e),
          ("success", DVal.vbool false)], st') ∧
      dictFind cid st'.conversations = some conv' ∧
      conv'.history =
        pushWindow st.max_history conv.history
          { role := "user", content := some msg, images := none, timestamp := st.clock } ++
        [{ role := "system", content := some ("Error: " ++ e), images := none,
           timestamp := st.clock + 2 }] ∧
      conv'.chat = conv.chat ∧ conv'.created_at = conv.created_at ∧
      conv'.last_active = st.clock + 1 := by
  have he : ensureConv st (some cid) none = Except.ok (cid, st) := by
    simp [ensureConv, hk]
  have hrun := send_message_run st (some cid) cid msg st conv (Except.error e) he hk
  obtain ⟨st', heq, hfind, _, _⟩ := exchangeKnown_error_shape st cid conv msg e
  exact ⟨st', _, by rw [hrun, heq], hfind, rfl, rfl, rfl, rfl⟩

/-- C9, witness at a concrete input: a failing call on the two-turn
conversation c of stAB. -/
theorem C9_witness :
    ∃ st' conv',
      send_message stAB (some "c") "m" none (Except.error "x") =
        Except.ok ([("conversation_id", DVal.vstr "c"), ("error", DVal.vstr "x"),
          ("success", DVal.vbool false)], st') ∧
      dictFind "c" st'.conversations = some conv' ∧
      conv'.history =
        pushWindow stAB.max_history convAB.history
          { role := "user", content := some "m", images := none, timestamp := stAB.clock } ++
        [{ role := "system", content := some ("Error: " ++ "x"), images := none,
           timestamp := stAB.clock + 2 }] ∧
      conv'.chat = convAB.chat ∧ conv'.created_at = convAB.created_at ∧
      conv'.last_active = stAB.clock + 1 :=
  C9_amended stAB "c" "m" "x" convAB (by decide)

/-- C10: the result dictionary of send_message has exactly the keys
conversation_id, text, image_paths, success (in that order) with
success=true on the success path, and exactly the keys conversation_id,
error, success with success=false on the failure path; a failure result has
no text and no image_paths key, a success result has no error key. -/
theorem C10_result_shape (st : St) (cid msg : String) (remote : Except String Response) :
    (∀ r, remote = Except.ok r → ∃ ps st',
      send_message st (some cid) msg none remote =
        Except.ok ([("conversation_id", DVal.vstr cid), ("text", DVal.voptStr r.text),
          ("image_paths", DVal.vpaths ps), ("success", DVal.vbool true)], st')) ∧
    (∀ e, remote = Except.error e → ∃ st',
      send_message st (some cid) msg none remote =
        Except.ok ([("conversation_id", DVal.vstr cid), ("error", DVal.vstr e),
          ("success", DVal.vbool false)], st')) := by
  obtain ⟨conv, st1, he, hf, _, _, _⟩ := ensureConv_some st cid
  constructor
  · rintro r rfl
    have hrun := send_message_run st (some cid) cid msg st1 conv (Except.ok r) he hf
    obtain ⟨ps, ta, st', heq, _⟩ := exchangeKnown_ok_shape st1 cid conv msg r
    exact ⟨ps, st', by rw [hrun, heq]⟩
  · rintro e rfl
    have hrun := send_message_run st (some cid) cid msg st1 conv (Except.error e) he hf
    obtain ⟨st', heq, _⟩ := exchangeKnown_error_shape st1 cid conv msg e
    exact ⟨st', by rw [hrun, heq]⟩

/-- C10, witness at concrete inputs: one successful and one failing call. -/
theorem C10_witness :
    (∃ ps st',
      send_message st2 (some "c") "m" none (Except.ok respText) =
        Except.ok ([("conversation_id", DVal.vstr "c"), ("text", DVal.voptStr respText.text),
          ("image_paths", DVal.vpaths ps), ("success", DVal.vbool true)], st')) ∧
    (∃ st',
      send_message st2 (some "c") "m" none (Except.error "x") =
        Except.ok ([("conversation_id", DVal.vstr "c"), ("error", DVal.vstr "x"),
          ("success", DVal.vbool false)], st')) :=
  ⟨(C10_result_shape st2 "c" "m" (Except.ok respText)).1 respText rfl,
   (C10_result_shape st2 "c" "m" (Except.error "x")).2 "x" rfl⟩

end GeminiClient
